import Mathlib

/-!
Verification of the job-watcher ingestion pipeline (`job_watcher.py`).

The Python source is shallowly embedded: pure helpers become Lean functions
over `List Char` / `String`; the sqlite seen-jobs table becomes a
`List SeenRecord` threaded through the pipeline; exceptions become explicit
`Except` values or early-return flags.  Regular-expression searches are
embedded as explicit left-to-right scans implementing the exact semantics of
the three patterns used by `extract_salary_in_inr`.  Python float arithmetic
in the LPA branch is modelled exactly (the computation `(lakhs * 100000) / 12`
truncated to integer is expressed as exact natural-number division); at every
concrete value used below the float and exact results agree.
-/

namespace JobWatcher

/-- ASCII lowercasing, as applied by Python `str.lower()` to the ASCII-plus-₹
inputs this program handles (`A`-`Z` map to `a`-`z`; everything else,
including `₹` and digits, is unchanged). -/
def toLowerA (c : Char) : Char :=
  if 65 ≤ c.toNat ∧ c.toNat ≤ 90 then Char.ofNat (c.toNat + 32) else c

/-- The regex character class `[0-9]` (code points 48-57). -/
def isDigit (c : Char) : Bool :=
  decide (48 ≤ c.toNat ∧ c.toNat ≤ 57)

/-- The regex class `\s` restricted to the ASCII whitespace characters
(space, tab, newline, carriage return, vertical tab, form feed). -/
def isSpace (c : Char) : Bool :=
  c == ' ' || c == '\t' || c == '\n' || c == '\r' || c == '\x0B' || c == '\x0C'

/-- `int(...)` applied to a captured group of decimal digits. -/
def parseNat (ds : List Char) : Nat :=
  ds.foldl (fun a c => a * 10 + (c.toNat - 48)) 0

/-- Python's substring test `needle in hay`. -/
def containsSub (hay needle : List Char) : Bool :=
  needle.isPrefixOf hay ||
    (match hay with
     | [] => false
     | _ :: t => containsSub t needle)

/-- `s.lower()` on the character data of a string. -/
def lowerData (s : String) : List Char :=
  s.data.map toLowerA

/-- Python slicing `s[:n]`. -/
def strTake (n : Nat) (s : String) : String :=
  String.mk (s.data.take n)

/-- `re.search(r'₹\s*([0-9]+)', s)`: scan left to right for `₹`, skip
whitespace, and require at least one digit; the capture is the maximal digit
run.  A `₹` not followed by whitespace-then-digits does not match, and the
scan continues after it. -/
def searchRupee : List Char → Option Nat
  | [] => none
  | c :: rest =>
    if c = '₹' then
      let ds := (rest.dropWhile isSpace).takeWhile isDigit
      if ds = [] then searchRupee rest else some (parseNat ds)
    else searchRupee rest

/-- `re.search(r'([0-9]+)\s*k', s)` followed by `* 1000`: at each start
position beginning a digit run, the greedy `[0-9]+` must consume the whole
run (a shorter prefix leaves a digit where `\s*k` must match), then optional
whitespace, then the literal `k`. -/
def searchThousands : List Char → Option Nat
  | [] => none
  | c :: rest =>
    if isDigit c then
      match (rest.dropWhile isDigit).dropWhile isSpace with
      | 'k' :: _ => some (parseNat (c :: rest.takeWhile isDigit) * 1000)
      | _ => searchThousands rest
    else searchThousands rest

/-- `re.search(r'([0-9]+(?:\.[0-9]+)?)\s*lpa', s)` followed by
`int((lakhs * 100000) / 12)`: integer digits, an optional fraction
(`.` plus at least one digit), optional whitespace, then the literal `lpa`.
The float computation is modelled exactly: with integer digits `I` and
fraction digits `F`, the monthly value is
`(parse (I ++ F) * 100000) / (12 * 10 ^ |F|)` with truncating division. -/
def searchLpa : List Char → Option Nat
  | [] => none
  | c :: rest =>
    if isDigit c then
      let ints := c :: rest.takeWhile isDigit
      let after := rest.dropWhile isDigit
      let fracs :=
        match after with
        | '.' :: r2 => r2.takeWhile isDigit
        | _ => []
      let after2 :=
        match after with
        | '.' :: r2 => if r2.takeWhile isDigit = [] then after else r2.dropWhile isDigit
        | _ => after
      if ['l', 'p', 'a'].isPrefixOf (after2.dropWhile isSpace) then
        some ((parseNat (ints ++ fracs) * 100000) / (12 * 10 ^ fracs.length))
      else searchLpa rest
    else searchLpa rest

/-- `extract_salary_in_inr(s)`: `None`/empty yields `None`; otherwise strip
commas, lowercase, and try the three patterns in order — `₹`-prefixed
integer taken literally, integer + `k` suffix times 1000, decimal + `lpa`
suffix converted from annual lakhs to a truncated monthly figure. -/
def extract_salary_in_inr : Option String → Option Nat
  | none => none
  | some s =>
    if s.data = [] then none
    else
      let t := (s.data.filter (fun c => c ≠ ',')).map toLowerA
      match searchRupee t with
      | some v => some v
      | none =>
        match searchThousands t with
        | some v => some v
        | none => searchLpa t

/-- The controlled keyword vocabulary `RESUME_KEYWORDS`. -/
def RESUME_KEYWORDS : List String :=
  ["html", "css", "javascript", "front end", "frontend", "web developer",
   "web design", "ui", "ux", "react", "vue", "angular", "responsive", "design"]

/-- `text_contains_keywords(text)`: some keyword occurs in `text.lower()`. -/
def text_contains_keywords (text : String) : Bool :=
  RESUME_KEYWORDS.any (fun k => containsSub (lowerData text) k.data)

/-- The result dict appended by each site handler. -/
structure Posting where
  id : String
  site : String
  title : String
  company : String
  url : Option String
  salary_text : Option String
  snippet : String
deriving DecidableEq

/-- Python `a or b` for an optional string `a` (both `None` and the empty
string are falsy) against a string default `b`; also covers the
`card.get(...) or None` normalization composed with `jobid or title`. -/
def pyOrStr (a : Option String) (b : String) : String :=
  match a with
  | some s => if s = "" then b else s
  | none => b

/-- One Naukri result card after BeautifulSoup extraction: the
`data-job-id` attribute, the text and `href` of the first anchor (absent if
there is no anchor), the text of the `subTitle` anchor, the card's full
text, and the text of the salary span. -/
structure NaukriCard where
  jobid : Option String
  titleTag : Option String
  titleHref : Option String
  companyTag : Option String
  desc : String
  salaryTag : Option String
deriving DecidableEq

/-- The per-card body of `search_naukri`: field defaulting, the keyword /
remote / salary filter chain in source order, and the result dict. -/
def search_naukri_card (minSalary : Nat) (c : NaukriCard) : Option Posting :=
  let title := c.titleTag.getD "No Title"
  let company := c.companyTag.getD "Unknown"
  let link := if c.titleTag.isSome then c.titleHref else none
  let salary_val := extract_salary_in_inr c.salaryTag
  if ¬ text_contains_keywords (title ++ c.desc) then none
  else if ¬ (containsSub (lowerData c.desc) "remote".data ||
             containsSub (lowerData c.desc) "work from home".data) then none
  else if (match salary_val with
           | some v => decide (v < minSalary)
           | none => false) then none
  else if salary_val = none then none
  else some {
    id := "naukri::" ++ pyOrStr c.jobid title,
    site := "Naukri", title := title, company := company, url := link,
    salary_text := c.salaryTag, snippet := strTake 300 c.desc }

/-- One Internshala card: `get_text(strip=True)` and
`get_text(" ", strip=True)` of the meta block, the `href` of the preceding
anchor, and the stipend span text. -/
structure InternshalaCard where
  metaText : String
  metaTextSpaced : String
  prevHref : Option String
  stipendTag : Option String
deriving DecidableEq

/-- The per-card body of `search_internshala`. -/
def search_internshala_card (minSalary : Nat) (c : InternshalaCard) : Option Posting :=
  let title := strTake 60 c.metaText
  let link := c.prevHref.map (fun h => "https://internshala.com" ++ h)
  let snippet := c.metaTextSpaced
  let salary_val := extract_salary_in_inr c.stipendTag
  if ¬ text_contains_keywords (title ++ snippet) then none
  else if ¬ containsSub (lowerData snippet) "work from home".data then none
  else if (match salary_val with
           | some v => decide (v < minSalary)
           | none => false) then none
  else if salary_val = none then none
  else some {
    id := "internshala::" ++ title,
    site := "Internshala", title := title, company := "Internshala Employer",
    url := link, salary_text := c.stipendTag, snippet := strTake 300 snippet }

/-- One Indeed card: `get_text(strip=True)`, `get_text(" ", strip=True)`,
the first anchor's `href`, the company-name span text, and the salary
snippet text. -/
structure IndeedCard where
  textConcat : String
  textSpaced : String
  href : Option String
  companyTag : Option String
  salaryTag : Option String
deriving DecidableEq

/-- The per-card body of `search_indeed`. -/
def search_indeed_card (minSalary : Nat) (c : IndeedCard) : Option Posting :=
  let title := strTake 60 c.textConcat
  let link := c.href.map (fun h => "https://in.indeed.com" ++ h)
  let company := c.companyTag.getD "Unknown"
  let snippet := c.textSpaced
  let salary_val := extract_salary_in_inr c.salaryTag
  if ¬ text_contains_keywords (title ++ snippet) then none
  else if ¬ (containsSub (lowerData snippet) "remote".data ||
             containsSub (lowerData snippet) "work from home".data) then none
  else if (match salary_val with
           | some v => decide (v < minSalary)
           | none => false) then none
  else if salary_val = none then none
  else some {
    id := "indeed::" ++ title,
    site := "Indeed", title := title, company := company, url := link,
    salary_text := c.salaryTag, snippet := strTake 300 snippet }

/-- One AngelList (wellfound) job anchor: its text and `href`. -/
structure AngelCard where
  text : String
  href : String
deriving DecidableEq

/-- The per-card body of `search_angellist`: a keyword check on the anchor
text only — no remote and no salary condition — and a result dict whose
`salary_text` is the literal `None`. -/
def search_angellist_card (c : AngelCard) : Option Posting :=
  let title := c.text
  let link := "https://wellfound.com" ++ c.href
  if ¬ text_contains_keywords title then none
  else some {
    id := "angellist::" ++ link,
    site := "AngelList", title := title, company := "Startup",
    url := some link, salary_text := none, snippet := title }

/-- One row of the sqlite `seen_jobs` table (`id` is the primary key,
`firstSeen` models the `first_seen` timestamp). -/
structure SeenRecord where
  id : String
  site : String
  title : String
  company : String
  url : Option String
  firstSeen : Nat
deriving DecidableEq

/-- `job_seen(job_id)`: `SELECT 1 FROM seen_jobs WHERE id = ?` is nonempty. -/
def job_seen (jobId : String) (store : List SeenRecord) : Bool :=
  store.any (fun r => r.id == jobId)

/-- `mark_job_seen(...)`: `INSERT OR IGNORE` keyed on `id` — a no-op when
the identifier is already present, otherwise a new row is appended. -/
def mark_job_seen (jobId site title company : String) (url : Option String)
    (ts : Nat) (store : List SeenRecord) : List SeenRecord :=
  if job_seen jobId store then store
  else store ++ [⟨jobId, site, title, company, url, ts⟩]

/-- The inner posting loop of `run()` for one source's job list.  `F` is the
set of identifiers on which the store raises during the `job_seen` check;
the raised exception escapes the loop (the remaining postings of this
source are not processed) and is caught by the per-source handler, so the
digest and store accumulated so far are kept and the `Bool` component
records that the loop was aborted. -/
def processJobs (F : List String) (ts : Nat) :
    List Posting → List SeenRecord → List Posting →
      List Posting × List SeenRecord × Bool
  | [], store, digest => (digest, store, false)
  | j :: rest, store, digest =>
    if j.id ∈ F then (digest, store, true)
    else if job_seen j.id store then processJobs F ts rest store digest
    else processJobs F ts rest
      (mark_job_seen j.id j.site j.title j.company j.url ts store)
      (digest ++ [j])

/-- The source loop of `run()`: each source either raises during fetch
(`Except.error`, caught and skipped) or yields a job list processed by the
posting loop; any exception inside the posting loop is caught by the same
per-source handler, after which the run proceeds to the next source. -/
def runPipeline (F : List String) (ts : Nat) :
    List (Except Unit (List Posting)) → List SeenRecord → List Posting →
      List Posting × List SeenRecord
  | [], store, digest => (digest, store)
  | Except.error _ :: rest, store, digest => runPipeline F ts rest store digest
  | Except.ok jobs :: rest, store, digest =>
    runPipeline F ts rest (processJobs F ts jobs store digest).2.1
      (processJobs F ts jobs store digest).1

/-- Python truthiness of an optional env string: `None` and `""` are falsy. -/
def truthy : Option String → Bool
  | none => false
  | some s => s ≠ ""

/-- `RECIPIENT_EMAIL = os.getenv("RECIPIENT_EMAIL", EMAIL_USER)`. -/
def recipientEmail (env user : Option String) : Option String :=
  match env with
  | some r => some r
  | none => user

/-- Observable outcome of `send_email`: the early return on missing
credentials versus reaching the SMTP delivery attempt. -/
inductive SendResult where
  | skipped
  | attempted
deriving DecidableEq

/-- The credential gate of `send_email`: `if not EMAIL_USER or not
EMAIL_PASS or not RECIPIENT_EMAIL: return` — delivery is attempted only
when all three are truthy.  The job list is unused by the gate. -/
def send_email (user pw rcpt : Option String) (jobs : List Posting) : SendResult :=
  if truthy user = false ∨ truthy pw = false ∨ truthy rcpt = false then
    SendResult.skipped
  else SendResult.attempted

/-- The character for a decimal digit value (values ≥ 9 clamp to `9`; only
applied to values below 10). -/
def digitChar : Nat → Char
  | 0 => '0'
  | 1 => '1'
  | 2 => '2'
  | 3 => '3'
  | 4 => '4'
  | 5 => '5'
  | 6 => '6'
  | 7 => '7'
  | 8 => '8'
  | _ => '9'

/-- The decimal string representation of a natural number, most significant
digit first — what Python `str` produces on the normalizer's integer
output. -/
def natDigits (n : Nat) : List Char :=
  if _h : n < 10 then [digitChar n]
  else natDigits (n / 10) ++ [digitChar (n % 10)]
decreasing_by exact Nat.div_lt_self (by omega) (by omega)

/-- Modelled from the spec: the Relevance Ranker of §4.5 is absent from
`src/` (the repository contains no ranking code at all); §4.5 names
stop-word exclusion, so a small fixed English stop-word list stands in for
the profile language's stop words. -/
def stopWords : List String :=
  ["the", "a", "an", "and", "or", "but", "of", "in", "on", "at", "to",
   "for", "with", "is", "are", "was", "were", "be", "been", "it", "this",
   "that", "by", "from", "as"]

/-- Modelled from the spec: alphabetic characters, for tokenizing text into
alphabetic runs (the ranker of §4.5 is absent from `src/`). -/
def isAlphaCh (c : Char) : Bool :=
  decide (97 ≤ c.toNat ∧ c.toNat ≤ 122) || decide (65 ≤ c.toNat ∧ c.toNat ≤ 90)

/-- Modelled from the spec: maximal alphabetic runs of a character list
(the ranker of §4.5 is absent from `src/`); `acc` holds the current run
reversed. -/
def alphaRuns : List Char → List Char → List (List Char)
  | [], acc => if acc = [] then [] else [acc.reverse]
  | c :: cs, acc =>
    if isAlphaCh c then alphaRuns cs (c :: acc)
    else if acc = [] then alphaRuns cs []
    else acc.reverse :: alphaRuns cs []

/-- Modelled from the spec: vectorization tokens — lower-cased alphabetic
runs with stop words removed (the ranker of §4.5 is absent from `src/`). -/
def tokenize (s : String) : List String :=
  ((alphaRuns s.data []).map (fun r => String.mk (r.map toLowerA))).filter
    (fun t => !(stopWords.contains t))

/-- Modelled from the spec: term frequency of `t` in a token list (the
ranker of §4.5 is absent from `src/`). -/
def tf (doc : List String) (t : String) : Nat :=
  doc.count t

/-- Modelled from the spec: document frequency of `t` in a corpus (the
ranker of §4.5 is absent from `src/`). -/
def df (corpus : List (List String)) (t : String) : Nat :=
  (corpus.filter (fun d => d.contains t)).length

/-- Modelled from the spec: inverse document frequency (the ranker of §4.5
is absent from `src/`). -/
noncomputable def idf (corpus : List (List String)) (t : String) : ℝ :=
  Real.log ((corpus.length : ℝ) / (df corpus t : ℝ))

/-- Modelled from the spec: the TF-IDF vector of a document over a shared
vocabulary (the ranker of §4.5 is absent from `src/`). -/
noncomputable def tfidfVec (corpus : List (List String)) (vocab : List String)
    (doc : List String) : List ℝ :=
  vocab.map (fun t => (tf doc t : ℝ) * idf corpus t)

/-- Modelled from the spec: dot product of two coordinate lists (the ranker
of §4.5 is absent from `src/`). -/
noncomputable def dotProd (u v : List ℝ) : ℝ :=
  ((u.zip v).map (fun p => p.1 * p.2)).sum

/-- Modelled from the spec: cosine similarity, with a zero result on a
zero-norm vector (the ranker of §4.5 is absent from `src/`). -/
noncomputable def cosineSim (u v : List ℝ) : ℝ :=
  if Real.sqrt (dotProd u u) * Real.sqrt (dotProd v v) = 0 then 0
  else dotProd u v / (Real.sqrt (dotProd u u) * Real.sqrt (dotProd v v))

/-- Modelled from the spec: clamping to `[0,1]` (the ranker of §4.5 is
absent from `src/`). -/
noncomputable def clamp01 (x : ℝ) : ℝ :=
  min 1 (max 0 x)

/-- Modelled from the spec: truncation to 3 decimal places (the ranker of
§4.5 is absent from `src/`). -/
noncomputable def round3 (x : ℝ) : ℝ :=
  (⌊x * 1000⌋ : ℝ) / 1000

/-- Modelled from the spec: the title-plus-company text of a posting used
for vectorization (the ranker of §4.5 is absent from `src/`). -/
def postingText (p : Posting) : String :=
  p.title ++ " " ++ p.company

/-- Modelled from the spec: a ranked posting — a posting with its
`relevance_score` and its input position, which both orders ties and is the
rank bookkeeping (the ranker of §4.5 is absent from `src/`). -/
structure RankedPosting where
  posting : Posting
  relevance_score : ℝ
  inputIdx : Nat

/-- Modelled from the spec: the output order of the ranker —
non-increasing by `relevance_score`, ties broken by earlier input position
(the ranker of §4.5 is absent from `src/`). -/
def rankRel (a b : RankedPosting) : Prop :=
  b.relevance_score < a.relevance_score ∨
    (a.relevance_score = b.relevance_score ∧ a.inputIdx ≤ b.inputIdx)

noncomputable instance : DecidableRel rankRel :=
  fun _ _ => Classical.dec _

instance : IsTrans RankedPosting rankRel :=
  ⟨by
    intro a b c hab hbc
    rcases hab with h1 | ⟨e1, i1⟩ <;> rcases hbc with h2 | ⟨e2, i2⟩
    · exact Or.inl (h2.trans h1)
    · exact Or.inl (e2 ▸ h1)
    · exact Or.inl (lt_of_lt_of_eq h2 e1.symm)
    · exact Or.inr ⟨e1.trans e2, i1.trans i2⟩⟩

instance : IsTotal RankedPosting rankRel :=
  ⟨by
    intro a b
    rcases lt_trichotomy a.relevance_score b.relevance_score with h | h | h
    · exact Or.inr (Or.inl h)
    · rcases Nat.le_total a.inputIdx b.inputIdx with hle | hle
      · exact Or.inl (Or.inr ⟨h, hle⟩)
      · exact Or.inr (Or.inr ⟨h.symm, hle⟩)
    · exact Or.inl (Or.inl h)⟩

/-- Modelled from the spec: `rank(postings, profile)` of §4.5, which is
absent from `src/` — an empty input short-circuits to an empty output
without vectorization; otherwise a TF-IDF space is built from the profile
document together with all posting documents, each posting is scored by the
clamped, truncated cosine similarity against the profile vector, and the
postings are sorted non-increasing by score with ties in input order. -/
noncomputable def rank (postings : List Posting) (profile : String) :
    List RankedPosting :=
  match postings with
  | [] => []
  | _ :: _ =>
    let docs := postings.map (fun p => tokenize (postingText p))
    let pdoc := tokenize profile
    let corpus := pdoc :: docs
    let vocab := corpus.flatten.dedup
    let pvec := tfidfVec corpus vocab pdoc
    let scored := postings.enum.map (fun ip =>
      { posting := ip.2,
        relevance_score := round3 (clamp01 (cosineSim pvec
          (tfidfVec corpus vocab (tokenize (postingText ip.2))))),
        inputIdx := ip.1 : RankedPosting })
    List.insertionSort rankRel scored

/-- Sample wellfound job anchor whose text matches a resume keyword and, as
on the live site's card markup, carries no salary information. -/
def angelCardBug : AngelCard :=
  ⟨"frontend developer", "/jobs/700"⟩

/-- Sample Naukri card passing every filter. -/
def naukriCardX : NaukriCard :=
  ⟨some "111", some "frontend developer", some "/job/1", some "Acme",
   "remote frontend css", some "₹25000"⟩

/-- The same Naukri card with a different `data-job-id` attribute only. -/
def naukriCardY : NaukriCard :=
  ⟨some "222", some "frontend developer", some "/job/1", some "Acme",
   "remote frontend css", some "₹25000"⟩

/-- Sample admitted posting. -/
def postA : Posting :=
  ⟨"naukri::a1", "Naukri", "Frontend Dev", "Acme", some "u1",
   some "₹25000", "snip"⟩

/-- A second sample posting with a distinct identifier. -/
def postB : Posting :=
  ⟨"naukri::b2", "Naukri", "UI Designer", "Beta", some "u2",
   some "₹30000", "snip2"⟩

/-- A sample store already containing `postA`'s identifier. -/
def storeA : List SeenRecord :=
  [⟨"naukri::a1", "Naukri", "t", "c", none, 7⟩]

/-- Claim C2: the Compensation Normalizer satisfies exactly the five point
cases — `₹25,000` parses to 25000, `20k` to 20000, `2.4 LPA` to the
truncated monthly figure 20000, and both absent input and an unrecognized
string yield absent, never zero. -/
theorem claim2 :
    extract_salary_in_inr (some "₹25,000") = some 25000 ∧
    extract_salary_in_inr (some "20k") = some 20000 ∧
    extract_salary_in_inr (some "2.4 LPA") = some 20000 ∧
    extract_salary_in_inr none = none ∧
    extract_salary_in_inr (some "garbage") = none := by
  decide

/-- Claim C1: the claim fails on the code — `search_angellist` performs no
compensation check at all, so a posting whose compensation field is absent
(and on which the Compensation Normalizer therefore yields absent) is still
appended to the results, contradicting the policy that every source handler
excludes such postings. -/
theorem claim1 :
    (search_angellist_card angelCardBug).isSome = true ∧
    (search_angellist_card angelCardBug).map Posting.salary_text = some none ∧
    extract_salary_in_inr none = none := by
  decide

/-- Claim C8 counterexample: two Naukri cards agreeing on source, URL and
title (and every other posting field) but differing in the `data-job-id`
attribute are both accepted yet receive different identifiers, so the
identifier is not a function of the (source, URL-or-title) pair. -/
theorem claim8_counterexample :
    naukriCardX.titleTag = naukriCardY.titleTag ∧
    naukriCardX.titleHref = naukriCardY.titleHref ∧
    (search_naukri_card 20000 naukriCardX).map Posting.url =
      (search_naukri_card 20000 naukriCardY).map Posting.url ∧
    (search_naukri_card 20000 naukriCardX).map Posting.title =
      (search_naukri_card 20000 naukriCardY).map Posting.title ∧
    (search_naukri_card 20000 naukriCardX).isSome = true ∧
    (search_naukri_card 20000 naukriCardX).map Posting.id ≠
      (search_naukri_card 20000 naukriCardY).map Posting.id := by
  decide

/-- Claim C8 as amended: each handler's identifier is a deterministic
function of the source tag together with that handler's own key field —
the `data-job-id`-or-title for Naukri, the (truncated) title for
Internshala and Indeed, and the URL for AngelList. -/
theorem claim8 :
    (∀ (minSalary : Nat) (c : NaukriCard) (p : Posting),
      search_naukri_card minSalary c = some p →
        p.id = "naukri::" ++ pyOrStr c.jobid (c.titleTag.getD "No Title")) ∧
    (∀ (minSalary : Nat) (c : InternshalaCard) (p : Posting),
      search_internshala_card minSalary c = some p →
        p.id = "internshala::" ++ strTake 60 c.metaText) ∧
    (∀ (minSalary : Nat) (c : IndeedCard) (p : Posting),
      search_indeed_card minSalary c = some p →
        p.id = "indeed::" ++ strTake 60 c.textConcat) ∧
    (∀ (c : AngelCard) (p : Posting),
      search_angellist_card c = some p →
        p.id = "angellist::" ++ ("https://wellfound.com" ++ c.href)) := by
  refine ⟨?_, ?_, ?_, ?_⟩
  · intro minSalary c p h
    simp only [search_naukri_card] at h
    split at h
    · exact absurd h (by simp)
    · split at h
      · exact absurd h (by simp)
      · split at h
        · exact absurd h (by simp)
        · split at h
          · exact absurd h (by simp)
          · injection h with h'
            subst h'
            rfl
  · intro minSalary c p h
    simp only [search_internshala_card] at h
    split at h
    · exact absurd h (by simp)
    · split at h
      · exact absurd h (by simp)
      · split at h
        · exact absurd h (by simp)
        · split at h
          · exact absurd h (by simp)
          · injection h with h'
            subst h'
            rfl
  · intro minSalary c p h
    simp only [search_indeed_card] at h
    split at h
    · exact absurd h (by simp)
    · split at h
      · exact absurd h (by simp)
      · split at h
        · exact absurd h (by simp)
        · split at h
          · exact absurd h (by simp)
          · injection h with h'
            subst h'
            rfl
  · intro c p h
    simp only [search_angellist_card] at h
    split at h
    · exact absurd h (by simp)
    · injection h with h'
      subst h'
      rfl

/-- Claim C8 witness: the amended identifier formula applied to a concrete
accepted AngelList card. -/
theorem claim8_witness :
    search_angellist_card angelCardBug =
      some ⟨"angellist::https://wellfound.com/jobs/700", "AngelList",
        "frontend developer", "Startup",
        some "https://wellfound.com/jobs/700", none, "frontend developer"⟩ ∧
    ("angellist::https://wellfound.com/jobs/700" : String) =
      "angellist::" ++ ("https://wellfound.com" ++ angelCardBug.href) :=
  ⟨by decide,
   claim8.2.2.2 angelCardBug
     ⟨"angellist::https://wellfound.com/jobs/700", "AngelList",
      "frontend developer", "Startup",
      some "https://wellfound.com/jobs/700", none, "frontend developer"⟩
     (by decide)⟩

/-- Claim C10: if any of the three email credentials is falsy the
credential gate of `send_email` returns `skipped` without attempting
delivery, and `attempted` is reached only when all three are truthy. -/
theorem claim10 :
    (∀ (user pw rcpt : Option String) (jobs : List Posting),
      (truthy user = false ∨ truthy pw = false ∨ truthy rcpt = false) →
        send_email user pw rcpt jobs = SendResult.skipped) ∧
    ∀ (user pw rcpt : Option String) (jobs : List Posting),
      send_email user pw rcpt jobs = SendResult.attempted →
        truthy user = true ∧ truthy pw = true ∧ truthy rcpt = true := by
  constructor
  · intro user pw rcpt jobs h
    simp only [send_email, if_pos h]
  · intro user pw rcpt jobs h
    by_cases hc : truthy user = false ∨ truthy pw = false ∨ truthy rcpt = false
    · rw [send_email, if_pos hc] at h
      exact absurd h (by simp)
    · push_neg at hc
      simp only [Bool.not_eq_false] at hc
      exact ⟨hc.1, hc.2.1, hc.2.2⟩

/-- `isDigit` unfolded to its code-point bounds. -/
theorem isDigit_iff {c : Char} : isDigit c = true ↔ (48 ≤ c.toNat ∧ c.toNat ≤ 57) := by
  simp [isDigit]

/-- Every digit character is a regex digit. -/
theorem isDigit_digitChar (d : Nat) : isDigit (digitChar d) = true := by
  unfold digitChar
  split <;> decide

/-- Reading a digit character back gives the digit. -/
theorem digitChar_toNat {d : Nat} (h : d < 10) : (digitChar d).toNat - 48 = d := by
  interval_cases d <;> decide

/-- A decimal representation is never empty. -/
theorem natDigits_ne_nil (n : Nat) : natDigits n ≠ [] := by
  rw [natDigits]
  split <;> simp

/-- A decimal representation consists of regex digits only. -/
theorem natDigits_digits (n : Nat) : ∀ c ∈ natDigits n, isDigit c = true := by
  induction n using Nat.strong_induction_on with
  | _ n ih =>
    rw [natDigits]
    split
    · intro c hc
      rw [List.mem_singleton] at hc
      subst hc
      exact isDigit_digitChar n
    · intro c hc
      rcases List.mem_append.mp hc with h1 | h2
      · exact ih (n / 10) (Nat.div_lt_self (by omega) (by omega)) c h1
      · rw [List.mem_singleton] at h2
        subst h2
        exact isDigit_digitChar (n % 10)

/-- `parseNat` over a single appended digit. -/
theorem parseNat_append_single (ds : List Char) (c : Char) :
    parseNat (ds ++ [c]) = parseNat ds * 10 + (c.toNat - 48) := by
  simp [parseNat, List.foldl_append]

/-- Parsing the decimal representation recovers the number. -/
theorem parseNat_natDigits (n : Nat) : parseNat (natDigits n) = n := by
  induction n using Nat.strong_induction_on with
  | _ n ih =>
    rw [natDigits]
    split
    · rename_i h
      show parseNat [digitChar n] = n
      simp only [parseNat, List.foldl_cons, List.foldl_nil]
      rw [Nat.zero_mul, Nat.zero_add]
      exact digitChar_toNat h
    · rw [parseNat_append_single,
          ih (n / 10) (Nat.div_lt_self (by omega) (by omega)),
          digitChar_toNat (Nat.mod_lt n (by omega))]
      omega

/-- `filter` keeps a list every element of which satisfies the predicate. -/
theorem filter_of_all {p : Char → Bool} :
    ∀ (l : List Char), (∀ c ∈ l, p c = true) → l.filter p = l
  | [], _ => rfl
  | a :: l, h => by
    have ha : p a = true := h a (by simp)
    simp only [List.filter, ha]
    rw [filter_of_all l (fun c hc => h c (by simp [hc]))]

/-- `takeWhile` keeps a list every element of which satisfies the
predicate. -/
theorem takeWhile_of_all {p : Char → Bool} :
    ∀ (l : List Char), (∀ c ∈ l, p c = true) → l.takeWhile p = l
  | [], _ => rfl
  | a :: l, h => by
    have ha : p a = true := h a (by simp)
    simp only [List.takeWhile, ha]
    rw [takeWhile_of_all l (fun c hc => h c (by simp [hc]))]

/-- `dropWhile` empties a list every element of which satisfies the
predicate. -/
theorem dropWhile_of_all {p : Char → Bool} :
    ∀ (l : List Char), (∀ c ∈ l, p c = true) → l.dropWhile p = []
  | [], _ => rfl
  | a :: l, h => by
    have ha : p a = true := h a (by simp)
    simp only [List.dropWhile, ha]
    exact dropWhile_of_all l (fun c hc => h c (by simp [hc]))

/-- `map` is the identity when the function fixes every element. -/
theorem map_id_of_all {f : Char → Char} :
    ∀ (l : List Char), (∀ c ∈ l, f c = c) → l.map f = l
  | [], _ => rfl
  | a :: l, h => by
    rw [List.map_cons, h a (by simp),
        map_id_of_all l (fun c hc => h c (by simp [hc]))]

/-- A regex digit is not a comma. -/
theorem not_comma_of_digit {c : Char} (h : isDigit c = true) :
    decide (c ≠ ',') = true := by
  rw [decide_eq_true_iff]
  intro e
  subst e
  exact absurd h (by decide)

/-- ASCII lowercasing fixes digits. -/
theorem toLowerA_digit {c : Char} (h : isDigit c = true) : toLowerA c = c := by
  obtain ⟨h1, h2⟩ := isDigit_iff.mp h
  unfold toLowerA
  rw [if_neg (by omega)]

/-- ASCII lowercasing fixes the rupee sign. -/
theorem toLowerA_rupee : toLowerA '₹' = '₹' := by decide

/-- A regex digit is not regex whitespace. -/
theorem isSpace_of_digit {c : Char} (h : isDigit c = true) : isSpace c = false := by
  cases hs : isSpace c
  · rfl
  · exfalso
    simp only [isSpace, Bool.or_eq_true, beq_iff_eq] at hs
    rcases hs with ((((e | e) | e) | e) | e) | e <;>
      (subst e; exact absurd h (by decide))

/-- A regex digit is not the rupee sign. -/
theorem not_rupee_of_digit {c : Char} (h : isDigit c = true) : ¬ (c = '₹') := by
  intro e
  subst e
  exact absurd h (by decide)

/-- The rupee pattern never matches an all-digit string. -/
theorem searchRupee_of_digits :
    ∀ (l : List Char), (∀ c ∈ l, isDigit c = true) → searchRupee l = none
  | [], _ => rfl
  | c :: rest, h => by
    simp only [searchRupee]
    rw [if_neg (not_rupee_of_digit (h c (by simp)))]
    exact searchRupee_of_digits rest (fun x hx => h x (by simp [hx]))

/-- The thousand-suffix pattern never matches an all-digit string. -/
theorem searchThousands_of_digits :
    ∀ (l : List Char), (∀ c ∈ l, isDigit c = true) → searchThousands l = none
  | [], _ => rfl
  | c :: rest, h => by
    have hrest : ∀ x ∈ rest, isDigit x = true := fun x hx => h x (by simp [hx])
    simp only [searchThousands]
    rw [if_pos (h c (by simp)), dropWhile_of_all rest hrest]
    exact searchThousands_of_digits rest hrest

/-- The lakh-per-annum pattern never matches an all-digit string. -/
theorem searchLpa_of_digits :
    ∀ (l : List Char), (∀ c ∈ l, isDigit c = true) → searchLpa l = none
  | [], _ => rfl
  | c :: rest, h => by
    have hrest : ∀ x ∈ rest, isDigit x = true := fun x hx => h x (by simp [hx])
    simp only [searchLpa]
    rw [if_pos (h c (by simp)), dropWhile_of_all rest hrest]
    exact searchLpa_of_digits rest hrest

/-- The rupee pattern on `₹` followed by bare digits captures exactly those
digits. -/
theorem searchRupee_rupee (ds : List Char) (h : ∀ c ∈ ds, isDigit c = true)
    (hne : ds ≠ []) : searchRupee ('₹' :: ds) = some (parseNat ds) := by
  simp only [searchRupee, if_true]
  have h1 : ds.dropWhile isSpace = ds := by
    cases ds with
    | nil => rfl
    | cons a l =>
      have hsp : isSpace a = false := isSpace_of_digit (h a (by simp))
      simp only [List.dropWhile, hsp]
  rw [h1, takeWhile_of_all ds h, if_neg hne]

/-- Comma-stripping and lowercasing fix an all-digit string. -/
theorem clean_digits (ds : List Char) (h : ∀ c ∈ ds, isDigit c = true) :
    (ds.filter (fun c => decide (c ≠ ','))).map toLowerA = ds := by
  rw [filter_of_all ds (fun c hc => not_comma_of_digit (h c hc))]
  exact map_id_of_all ds (fun c hc => toLowerA_digit (h c hc))

/-- The normalizer yields absent on any bare nonempty digit string. -/
theorem extract_digits_none (ds : List Char) (h : ∀ c ∈ ds, isDigit c = true)
    (hne : ds ≠ []) :
    extract_salary_in_inr (some (String.mk ds)) = none := by
  simp only [extract_salary_in_inr]
  rw [if_neg hne, clean_digits ds h]
  simp only [searchRupee_of_digits ds h, searchThousands_of_digits ds h,
    searchLpa_of_digits ds h]

/-- The normalizer recovers the value from a ₹-prefixed digit string. -/
theorem extract_rupee_digits (ds : List Char) (h : ∀ c ∈ ds, isDigit c = true)
    (hne : ds ≠ []) :
    extract_salary_in_inr (some (String.mk ('₹' :: ds))) = some (parseNat ds) := by
  simp only [extract_salary_in_inr]
  rw [if_neg (by simp)]
  have h1 : decide (('₹' : Char) ≠ ',') = true := by decide
  have hclean :
      (('₹' :: ds).filter (fun c => decide (c ≠ ','))).map toLowerA = '₹' :: ds := by
    simp only [List.filter, h1,
      filter_of_all ds (fun c hc => not_comma_of_digit (h c hc)),
      List.map_cons, toLowerA_rupee,
      map_id_of_all ds (fun c hc => toLowerA_digit (h c hc))]
  rw [hclean, searchRupee_rupee ds h hne]

/-- Claim C3 counterexample: `20k` is of the thousand-suffix recognized
form and normalizes to 20000, but applying the normalizer to `20000` — the
decimal string representation of that output — yields absent, not 20000,
so idempotence on the output's string representation fails. -/
theorem claim3_counterexample :
    extract_salary_in_inr (some "20k") = some 20000 ∧
    extract_salary_in_inr (some "20000") ≠ some 20000 := by
  decide

/-- Claim C3 as amended: the normalizer is deterministic (a pure function
of its input), but it is not idempotent on the bare decimal string
representation of its own output — bare digits match none of the three
patterns and yield absent; re-normalization recovers the value only from
the ₹-prefixed decimal representation. -/
theorem claim3 (s : String) (v : Nat)
    (_h : extract_salary_in_inr (some s) = some v) :
    extract_salary_in_inr (some (String.mk (natDigits v))) = none ∧
    extract_salary_in_inr (some (String.mk ('₹' :: natDigits v))) = some v := by
  constructor
  · exact extract_digits_none (natDigits v) (natDigits_digits v) (natDigits_ne_nil v)
  · rw [extract_rupee_digits (natDigits v) (natDigits_digits v) (natDigits_ne_nil v),
        parseNat_natDigits v]

/-- Claim C3 witness: the amended statement at the concrete recognized
input `20k` with output 20000. -/
theorem claim3_witness :
    extract_salary_in_inr (some "20k") = some 20000 ∧
    (extract_salary_in_inr (some (String.mk (natDigits 20000))) = none ∧
     extract_salary_in_inr (some (String.mk ('₹' :: natDigits 20000))) = some 20000) :=
  ⟨by decide, claim3 "20k" 20000 (by decide)⟩

/-- Any-over-append for the dedup check. -/
theorem job_seen_append (i : String) (s t : List SeenRecord) :
    job_seen i (s ++ t) = (job_seen i s || job_seen i t) :=
  List.any_append

/-- After marking an identifier it is seen. -/
theorem job_seen_mark_self (jobId site title company : String)
    (url : Option String) (ts : Nat) (store : List SeenRecord) :
    job_seen jobId (mark_job_seen jobId site title company url ts store) = true := by
  unfold mark_job_seen
  split
  · assumption
  · rw [job_seen_append]
    simp [job_seen]

/-- Marking preserves every identifier already seen. -/
theorem job_seen_mono {i : String} {store : List SeenRecord}
    (h : job_seen i store = true) (jobId site title company : String)
    (url : Option String) (ts : Nat) :
    job_seen i (mark_job_seen jobId site title company url ts store) = true := by
  unfold mark_job_seen
  split
  · exact h
  · rw [job_seen_append, h, Bool.true_or]

/-- The posting loop preserves the dedup invariant: digest identifiers are
pairwise distinct and every admitted identifier is recorded in the store. -/
theorem processJobs_inv (F : List String) (ts : Nat) :
    ∀ (jobs : List Posting) (store : List SeenRecord) (digest : List Posting),
      (digest.map Posting.id).Nodup →
      (∀ j ∈ digest, job_seen j.id store = true) →
      (((processJobs F ts jobs store digest).1.map Posting.id).Nodup ∧
        ∀ j ∈ (processJobs F ts jobs store digest).1,
          job_seen j.id (processJobs F ts jobs store digest).2.1 = true)
  | [], _store, _digest, h1, h2 => ⟨h1, h2⟩
  | j :: rest, store, digest, h1, h2 => by
    by_cases hF : j.id ∈ F
    · simp only [processJobs, if_pos hF]
      exact ⟨h1, h2⟩
    · by_cases hs : job_seen j.id store = true
      · simp only [processJobs, if_neg hF, if_pos hs]
        exact processJobs_inv F ts rest store digest h1 h2
      · simp only [processJobs, if_neg hF, if_neg hs]
        apply processJobs_inv F ts rest _ _
        · rw [List.map_append, List.map_cons, List.map_nil, List.nodup_append]
          refine ⟨h1, List.nodup_singleton _, ?_⟩
          intro a ha hb
          rw [List.mem_singleton] at hb
          subst hb
          obtain ⟨x, hxd, hxi⟩ := List.mem_map.mp ha
          exact hs (hxi ▸ h2 x hxd)
        · intro x hx
          rcases List.mem_append.mp hx with hxd | hxj
          · exact job_seen_mono (h2 x hxd) j.id j.site j.title j.company j.url ts
          · have hxe : x = j := by simpa using hxj
            subst hxe
            exact job_seen_mark_self x.id x.site x.title x.company x.url ts store

/-- Marking extends the store by a (possibly empty) suffix. -/
theorem mark_store_append (jobId site title company : String)
    (url : Option String) (ts : Nat) (store : List SeenRecord) :
    ∃ t, mark_job_seen jobId site title company url ts store = store ++ t := by
  unfold mark_job_seen
  split
  · exact ⟨[], (List.append_nil store).symm⟩
  · exact ⟨_, rfl⟩

/-- The posting loop extends the store by a suffix. -/
theorem processJobs_store_append (F : List String) (ts : Nat) :
    ∀ (jobs : List Posting) (store : List SeenRecord) (digest : List Posting),
      ∃ t, (processJobs F ts jobs store digest).2.1 = store ++ t
  | [], store, _digest => ⟨[], (List.append_nil store).symm⟩
  | j :: rest, store, digest => by
    by_cases hF : j.id ∈ F
    · simp only [processJobs, if_pos hF]
      exact ⟨[], (List.append_nil store).symm⟩
    · by_cases hs : job_seen j.id store = true
      · simp only [processJobs, if_neg hF, if_pos hs]
        exact processJobs_store_append F ts rest store digest
      · simp only [processJobs, if_neg hF, if_neg hs]
        obtain ⟨t1, ht1⟩ :=
          mark_store_append j.id j.site j.title j.company j.url ts store
        obtain ⟨t2, ht2⟩ := processJobs_store_append F ts rest
          (mark_job_seen j.id j.site j.title j.company j.url ts store)
          (digest ++ [j])
        exact ⟨t1 ++ t2, by rw [ht2, ht1, List.append_assoc]⟩

/-- The posting loop extends the digest by a suffix. -/
theorem processJobs_digest_append (F : List String) (ts : Nat) :
    ∀ (jobs : List Posting) (store : List SeenRecord) (digest : List Posting),
      ∃ t, (processJobs F ts jobs store digest).1 = digest ++ t
  | [], _store, digest => ⟨[], (List.append_nil digest).symm⟩
  | j :: rest, store, digest => by
    by_cases hF : j.id ∈ F
    · simp only [processJobs, if_pos hF]
      exact ⟨[], (List.append_nil digest).symm⟩
    · by_cases hs : job_seen j.id store = true
      · simp only [processJobs, if_neg hF, if_pos hs]
        exact processJobs_digest_append F ts rest store digest
      · simp only [processJobs, if_neg hF, if_neg hs]
        obtain ⟨t2, ht2⟩ := processJobs_digest_append F ts rest
          (mark_job_seen j.id j.site j.title j.company j.url ts store)
          (digest ++ [j])
        exact ⟨[j] ++ t2, by rw [ht2, List.append_assoc]⟩

/-- The source loop extends the store by a suffix. -/
theorem runPipeline_store_append (F : List String) (ts : Nat) :
    ∀ (sources : List (Except Unit (List Posting))) (store : List SeenRecord)
      (digest : List Posting),
      ∃ t, (runPipeline F ts sources store digest).2 = store ++ t
  | [], store, _digest => ⟨[], (List.append_nil store).symm⟩
  | Except.error _ :: rest, store, digest =>
    runPipeline_store_append F ts rest store digest
  | Except.ok jobs :: rest, store, digest => by
    obtain ⟨t1, ht1⟩ := processJobs_store_append F ts jobs store digest
    obtain ⟨t2, ht2⟩ := runPipeline_store_append F ts rest
      (processJobs F ts jobs store digest).2.1
      (processJobs F ts jobs store digest).1
    exact ⟨t1 ++ t2, by
      simp only [runPipeline]
      rw [ht2, ht1, List.append_assoc]⟩

/-- The source loop extends the digest by a suffix. -/
theorem runPipeline_digest_append (F : List String) (ts : Nat) :
    ∀ (sources : List (Except Unit (List Posting))) (store : List SeenRecord)
      (digest : List Posting),
      ∃ t, (runPipeline F ts sources store digest).1 = digest ++ t
  | [], _store, digest => ⟨[], (List.append_nil digest).symm⟩
  | Except.error _ :: rest, store, digest =>
    runPipeline_digest_append F ts rest store digest
  | Except.ok jobs :: rest, store, digest => by
    obtain ⟨t1, ht1⟩ := processJobs_digest_append F ts jobs store digest
    obtain ⟨t2, ht2⟩ := runPipeline_digest_append F ts rest
      (processJobs F ts jobs store digest).2.1
      (processJobs F ts jobs store digest).1
    exact ⟨t1 ++ t2, by
      simp only [runPipeline]
      rw [ht2, ht1, List.append_assoc]⟩

/-- The source loop composes over list append. -/
theorem runPipeline_append (F : List String) (ts : Nat) :
    ∀ (xs ys : List (Except Unit (List Posting))) (store : List SeenRecord)
      (digest : List Posting),
      runPipeline F ts (xs ++ ys) store digest =
        runPipeline F ts ys (runPipeline F ts xs store digest).2
          (runPipeline F ts xs store digest).1
  | [], _ys, _store, _digest => rfl
  | Except.error _ :: xs, ys, store, digest =>
    runPipeline_append F ts xs ys store digest
  | Except.ok jobs :: xs, ys, store, digest => by
    simp only [List.cons_append, runPipeline]
    exact runPipeline_append F ts xs ys _ _

/-- A source that raises contributes nothing: the run is the run without
it. -/
theorem runPipeline_error_skip (F : List String) (ts : Nat) :
    ∀ (pre post : List (Except Unit (List Posting))) (store : List SeenRecord)
      (digest : List Posting),
      runPipeline F ts (pre ++ Except.error () :: post) store digest =
        runPipeline F ts (pre ++ post) store digest
  | [], _post, _store, _digest => rfl
  | Except.error _ :: pre, post, store, digest =>
    runPipeline_error_skip F ts pre post store digest
  | Except.ok jobs :: pre, post, store, digest => by
    simp only [List.cons_append, runPipeline]
    exact runPipeline_error_skip F ts pre post _ _

/-- The posting loop admits no posting whose dedup check raises. -/
theorem processJobs_avoid (F : List String) (ts : Nat) :
    ∀ (jobs : List Posting) (store : List SeenRecord) (digest : List Posting),
      (∀ j ∈ digest, j.id ∉ F) →
      ∀ j ∈ (processJobs F ts jobs store digest).1, j.id ∉ F
  | [], _store, _digest, h => h
  | j :: rest, store, digest, h => by
    by_cases hF : j.id ∈ F
    · simp only [processJobs, if_pos hF]
      exact h
    · by_cases hs : job_seen j.id store = true
      · simp only [processJobs, if_neg hF, if_pos hs]
        exact processJobs_avoid F ts rest store digest h
      · simp only [processJobs, if_neg hF, if_neg hs]
        apply processJobs_avoid F ts rest _ _
        intro x hx
        rcases List.mem_append.mp hx with hxd | hxj
        · exact h x hxd
        · have hxe : x = j := by simpa using hxj
          subst hxe
          exact hF

/-- The source loop admits no posting whose dedup check raises. -/
theorem runPipeline_avoid (F : List String) (ts : Nat) :
    ∀ (sources : List (Except Unit (List Posting))) (store : List SeenRecord)
      (digest : List Posting),
      (∀ j ∈ digest, j.id ∉ F) →
      ∀ j ∈ (runPipeline F ts sources store digest).1, j.id ∉ F
  | [], _store, _digest, h => h
  | Except.error _ :: rest, store, digest, h =>
    runPipeline_avoid F ts rest store digest h
  | Except.ok jobs :: rest, store, digest, h =>
    runPipeline_avoid F ts rest _ _ (processJobs_avoid F ts jobs store digest h)

/-- The source loop preserves the dedup invariant. -/
theorem runPipeline_inv (F : List String) (ts : Nat) :
    ∀ (sources : List (Except Unit (List Posting))) (store : List SeenRecord)
      (digest : List Posting),
      (digest.map Posting.id).Nodup →
      (∀ j ∈ digest, job_seen j.id store = true) →
      (((runPipeline F ts sources store digest).1.map Posting.id).Nodup ∧
        ∀ j ∈ (runPipeline F ts sources store digest).1,
          job_seen j.id (runPipeline F ts sources store digest).2 = true)
  | [], _store, _digest, h1, h2 => ⟨h1, h2⟩
  | Except.error _ :: rest, store, digest, h1, h2 =>
    runPipeline_inv F ts rest store digest h1 h2
  | Except.ok jobs :: rest, store, digest, h1, h2 => by
    obtain ⟨g1, g2⟩ := processJobs_inv F ts jobs store digest h1 h2
    exact runPipeline_inv F ts rest _ _ g1 g2

/-- Claim C4: within a single run, at most one posting per identifier is
admitted — the digest's identifiers are pairwise distinct — and every
admitted identifier is recorded in the store before any later posting is
checked (so it is still recorded at the end of the run). -/
theorem claim4 (F : List String) (ts : Nat)
    (sources : List (Except Unit (List Posting))) (store : List SeenRecord) :
    ((runPipeline F ts sources store []).1.map Posting.id).Nodup ∧
    ∀ j ∈ (runPipeline F ts sources store []).1,
      job_seen j.id (runPipeline F ts sources store []).2 = true :=
  runPipeline_inv F ts sources store [] (by simp) (by simp)

/-- Claim C4 witness: a run whose single source yields the same posting
twice admits it once, with its identifier recorded. -/
theorem claim4_witness :
    ((runPipeline [] 0 [Except.ok [postA, postA]] [] []).1.map Posting.id).Nodup ∧
    ∀ j ∈ (runPipeline [] 0 [Except.ok [postA, postA]] [] []).1,
      job_seen j.id (runPipeline [] 0 [Except.ok [postA, postA]] [] []).2 = true :=
  claim4 [] 0 [Except.ok [postA, postA]] []

/-- Claim C5 counterexample: with the store raising only on `postA`'s
check, the later posting `postB` of the same source — unseen, distinct,
and with a working store answer — is dropped too: the whole source
remainder is lost, so fail-closed is not at the granularity of the single
affected posting. -/
theorem claim5_counterexample :
    processJobs ["naukri::a1"] 0 [postA, postB] [] [] = ([], [], true) ∧
    postB.id ∉ (["naukri::a1"] : List String) ∧
    job_seen postB.id [] = false := by
  decide

/-- Claim C5 as amended: a posting whose dedup check raises is never
admitted (no admitted posting's identifier is a raising one), and the
raised exception aborts the remaining postings of that source — digest and
store keep exactly the admissions already made — while the rest of the run
continues with later sources. -/
theorem claim5 :
    (∀ (F : List String) (ts : Nat)
        (sources : List (Except Unit (List Posting))) (store : List SeenRecord),
      ∀ j ∈ (runPipeline F ts sources store []).1, j.id ∉ F) ∧
    ∀ (F : List String) (ts : Nat) (j : Posting) (rest : List Posting)
        (store : List SeenRecord) (digest : List Posting),
      j.id ∈ F → processJobs F ts (j :: rest) store digest = (digest, store, true) := by
  constructor
  · intro F ts sources store
    exact runPipeline_avoid F ts sources store [] (by simp)
  · intro F ts j rest store digest hF
    simp only [processJobs, if_pos hF]

/-- Claim C5 witness: the abort equation applied at a concrete raising
check. -/
theorem claim5_witness :
    postA.id ∈ (["naukri::a1"] : List String) ∧
    processJobs ["naukri::a1"] 0 (postA :: [postB]) storeA [] = ([], storeA, true) :=
  ⟨by decide, claim5.2 ["naukri::a1"] 0 postA [postB] storeA [] (by decide)⟩

/-- Claim C6: a source that raises is caught and skipped — the run equals
the run without that source, every later source is still processed, and
the digest admitted before the failing source is a prefix of the final
digest. -/
theorem claim6 (F : List String) (ts : Nat)
    (pre post : List (Except Unit (List Posting)))
    (store : List SeenRecord) (digest : List Posting) :
    runPipeline F ts (pre ++ Except.error () :: post) store digest =
      runPipeline F ts (pre ++ post) store digest ∧
    ∃ t, (runPipeline F ts (pre ++ Except.error () :: post) store digest).1 =
      (runPipeline F ts pre store digest).1 ++ t := by
  refine ⟨runPipeline_error_skip F ts pre post store digest, ?_⟩
  rw [runPipeline_error_skip F ts pre post store digest,
      runPipeline_append F ts pre post store digest]
  exact runPipeline_digest_append F ts post _ _

/-- Claim C9: the seen-jobs ledger is append-only — recording an
identifier already present leaves the store exactly unchanged (every
existing row, including its timestamp, is untouched), and a whole run only
ever appends a suffix to the store, never updating or deleting a row. -/
theorem claim9 :
    (∀ (jobId site title company : String) (url : Option String) (ts : Nat)
        (store : List SeenRecord),
      job_seen jobId store = true →
        mark_job_seen jobId site title company url ts store = store) ∧
    ∀ (F : List String) (ts : Nat)
        (sources : List (Except Unit (List Posting))) (store : List SeenRecord)
        (digest : List Posting),
      ∃ t, (runPipeline F ts sources store digest).2 = store ++ t := by
  constructor
  · intro jobId site title company url ts store h
    unfold mark_job_seen
    rw [if_pos h]
  · intro F ts sources store digest
    exact runPipeline_store_append F ts sources store digest

/-- Claim C9 witness: re-recording an identifier already in a concrete
store is a no-op. -/
theorem claim9_witness :
    job_seen "naukri::a1" storeA = true ∧
    mark_job_seen "naukri::a1" "S" "T" "C" none 9 storeA = storeA :=
  ⟨by decide, claim9.1 "naukri::a1" "S" "T" "C" none 9 storeA (by decide)⟩

/-- A clamped, truncated score lies in `[0,1]`. -/
theorem round3_clamp01_bounds (x : ℝ) :
    0 ≤ round3 (clamp01 x) ∧ round3 (clamp01 x) ≤ 1 := by
  have h0 : (0 : ℝ) ≤ clamp01 x := le_min (by norm_num) (le_max_left 0 x)
  have h1 : clamp01 x ≤ 1 := min_le_left _ _
  unfold round3
  constructor
  · apply div_nonneg _ (by norm_num)
    exact_mod_cast Int.floor_nonneg.mpr (mul_nonneg h0 (by norm_num))
  · rw [div_le_one (by norm_num)]
    have h2 : (⌊clamp01 x * 1000⌋ : ℝ) ≤ clamp01 x * 1000 := Int.floor_le _
    nlinarith

/-- Claim C7: the Relevance Ranker returns the empty sequence on empty
input (without vectorizing), preserves the input length, assigns every
posting a `relevance_score` in `[0,1]`, and emits its output sorted
non-increasing by score with ties in stable input order. -/
theorem claim7 :
    (∀ profile : String, rank [] profile = []) ∧
    (∀ (postings : List Posting) (profile : String),
      (rank postings profile).length = postings.length) ∧
    (∀ (postings : List Posting) (profile : String),
      List.Forall (fun r => 0 ≤ r.relevance_score ∧ r.relevance_score ≤ 1)
        (rank postings profile)) ∧
    ∀ (postings : List Posting) (profile : String),
      List.Sorted rankRel (rank postings profile) := by
  refine ⟨fun _ => rfl, ?_, ?_, ?_⟩
  · intro postings profile
    cases postings with
    | nil => rfl
    | cons p ps =>
      simp only [rank, List.length_insertionSort, List.length_map,
        List.enum_length]
  · intro postings profile
    rw [List.forall_iff_forall_mem]
    intro r hr
    cases postings with
    | nil => simp [rank] at hr
    | cons p ps =>
      simp only [rank, List.mem_insertionSort] at hr
      obtain ⟨ip, _, he⟩ := List.mem_map.mp hr
      subst he
      exact round3_clamp01_bounds _
  · intro postings profile
    cases postings with
    | nil => exact List.sorted_nil
    | cons p ps =>
      simp only [rank]
      exact List.sorted_insertionSort rankRel _

/-- Claim C10 witness: a concrete call with the sender user absent is
skipped. -/
theorem claim10_witness :
    (truthy (none : Option String) = false ∨ truthy (some "pw") = false ∨
      truthy (some "rcpt") = false) ∧
    send_email none (some "pw") (some "rcpt") [postA] = SendResult.skipped :=
  ⟨Or.inl (by decide),
   claim10.1 none (some "pw") (some "rcpt") [postA] (Or.inl (by decide))⟩

end JobWatcher
